import Mathlib

/-!
Verification of the decimal128.js core (src/common.mts, src/digitString.mts,
src/decimal128.mts) against its natural-language specification.

The JavaScript sources are shallowly embedded: JS strings become lists of
characters, digits become natural numbers, BigInt becomes Int, thrown
exceptions become an error monad, and a JS number that may be a digit,
undefined, or NaN becomes the inductive type JSDigit.  The exact-rational
engine (src/rational.mjs) is not part of the sources, so its operations are
modelled from the specification (section 4.3), as flagged in their doc
comments.
-/

deriving instance DecidableEq for Except

namespace D128

/-- A JS string, embedded as its list of characters. -/
abbrev Str := List Char

/-- The errors thrown by the embedded code.  The JS code throws SyntaxError,
RangeError (with three distinct messages), TypeError, and a generic Error
from integerCharToDigit; we represent each throw site by its own
constructor.  badFormat is the SyntaxError of the constructor,
typeNotSafeInteger the TypeError of Decimal128.round. -/
inductive JSError where
  | badFormat : JSError
  | rangeIntegerTooLarge : JSError
  | rangeExpTooBig : JSError
  | rangeExpTooSmall : JSError
  | typeNotSafeInteger : JSError
  | notADigit : Char → JSError
deriving DecidableEq, Repr

/-- The nine rounding modes of common.mts (type RoundingMode). -/
inductive RoundingMode where
  | ceil | floor | expand | trunc
  | halfEven | halfExpand | halfCeil | halfFloor | halfTrunc
deriving DecidableEq, Repr

/-- A JS number value flowing through the rounding step: an actual digit,
the undefined value (from an out-of-bounds array read), or NaN (from
parseInt of an empty string, or from undefined + 1). -/
inductive JSDigit where
  | num : Nat → JSDigit
  | undefined : JSDigit
  | nan : JSDigit
deriving DecidableEq, Repr

/-- JS addition of 1 to a possibly-undefined digit: undefined + 1 is NaN,
NaN + 1 is NaN. -/
def jsAdd1 : JSDigit → JSDigit
  | .num n => .num (n + 1)
  | .undefined => .nan
  | .nan => .nan

/-- The JS test digitToRound % 2 === 0: false when the value is undefined or
NaN (undefined % 2 and NaN % 2 are NaN, and NaN === 0 is false). -/
def jsMod2IsZero : JSDigit → Bool
  | .num n => n % 2 == 0
  | .undefined => false
  | .nan => false

/-- Rendering of a JS value by template interpolation: a number renders in
decimal, undefined renders as the eight characters of "undefined", NaN as
"NaN". -/
def renderJS : JSDigit → Str
  | .num n => (Nat.repr n).toList
  | .undefined => "undefined".toList
  | .nan => "NaN".toList

/-- integerCharToDigit from digitString.mts: maps a character to its digit
value, throwing on anything outside 0-9. -/
def integerCharToDigit (c : Char) : Except JSError Nat :=
  match c with
  | '0' => .ok 0
  | '1' => .ok 1
  | '2' => .ok 2
  | '3' => .ok 3
  | '4' => .ok 4
  | '5' => .ok 5
  | '6' => .ok 6
  | '7' => .ok 7
  | '8' => .ok 8
  | '9' => .ok 9
  | _ => .error (.notADigit c)

/-- explodeDigits from digitString.mts: s.split("").map(integerCharToDigit),
throwing at the first non-digit character. -/
def explodeDigits : Str → Except JSError (List Nat)
  | [] => .ok []
  | c :: cs => do
    let d ← integerCharToDigit c
    let ds ← explodeDigits cs
    .ok (d :: ds)

/-- The digit-sequence engine: a magnitude held as integer-part digits (lhs)
and fractional-part digits (rhs), as in class DigitString. -/
structure DigitString where
  lhs : List Nat
  rhs : List Nat
deriving DecidableEq, Repr

/-- The DigitString constructor: both parts are exploded into digits,
throwing on a non-digit character. -/
def DigitString.make (lhs rhs : Str) : Except JSError DigitString := do
  let l ← explodeDigits lhs
  let r ← explodeDigits rhs
  .ok ⟨l, r⟩

/-- Rendering a run of digits: Array.prototype.join("") stringifies each
element (digit values render in decimal) and concatenates. -/
def renderDigits (l : List Nat) : Str :=
  (l.map (fun d => (Nat.repr d).toList)).flatten

/-- DigitString.toString: integer part, a point, fractional part; an empty
integer part renders with a leading 0. -/
def DigitString.toStr (d : DigitString) : Str :=
  if d.lhs = [] then '0' :: '.' :: renderDigits d.rhs
  else renderDigits d.lhs ++ '.' :: renderDigits d.rhs

/-- roundIt from digitString.mts: one rounding-mode decision.  digitToRound
may be undefined or NaN at runtime (the TS Digit type notwithstanding), so it
is a JSDigit here; the deciding digit is always produced by parseInt on a
real character, hence a Nat. -/
def roundIt (isNegative : Bool) (digitToRound : JSDigit) (decidingDigit : Nat)
    (roundingMode : RoundingMode) : JSDigit :=
  match roundingMode with
  | .ceil => if isNegative then digitToRound else jsAdd1 digitToRound
  | .floor => if isNegative then jsAdd1 digitToRound else digitToRound
  | .expand => jsAdd1 digitToRound
  | .trunc => digitToRound
  | .halfCeil =>
      if decidingDigit ≥ 5 then
        if isNegative then digitToRound else jsAdd1 digitToRound
      else digitToRound
  | .halfFloor =>
      if decidingDigit = 5 then
        if isNegative then jsAdd1 digitToRound else digitToRound
      else if decidingDigit > 5 then jsAdd1 digitToRound
      else digitToRound
  | .halfTrunc =>
      if decidingDigit = 5 then digitToRound
      else if decidingDigit > 5 then jsAdd1 digitToRound
      else digitToRound
  | .halfExpand =>
      if decidingDigit ≥ 5 then jsAdd1 digitToRound
      else digitToRound
  | .halfEven =>
      if decidingDigit = 5 then
        if jsMod2IsZero digitToRound then digitToRound
        else jsAdd1 digitToRound
      else if decidingDigit > 5 then jsAdd1 digitToRound
      else digitToRound

/-- The value of a digit character under JS parseInt (all call sites pass a
character 0-9). -/
def charVal (c : Char) : Nat := c.toNat - 48

/-- DigitString.round: renders to text, splits at the (unique) decimal
point, appends a 0 to the fractional text, takes the first fractional
character as deciding digit, and splices roundIt's result onto the end of
the remaining fractional text.  Re-parsing through the constructor throws
when the spliced value renders as "undefined" or "NaN". -/
def DigitString.round (d : DigitString) (finalDigit : JSDigit)
    (mode : RoundingMode) : Except JSError DigitString :=
  let s := d.toStr
  let lhsS := s.takeWhile (fun c => c != '.')
  let rhsS := (s.dropWhile (fun c => c != '.')).tail
  let newRhs := rhsS ++ ['0']
  let newFinalDigit := roundIt false finalDigit (charVal (newRhs.headD '0')) mode
  DigitString.make lhsS (newRhs.drop 1 ++ renderJS newFinalDigit)

/-- DigitString.significand: concatenation of both digit parts. -/
def DigitString.significand (d : DigitString) : List Nat := d.lhs ++ d.rhs

/-- DigitString.exponent: the length of the integer part (a JS number; we
embed it as Int since the surrounding code compares it against negative
bounds). -/
def DigitString.exponent (d : DigitString) : Int := d.lhs.length

/-- DigitString.countSignificantDigits: total digit count of both parts. -/
def DigitString.countSignificantDigits (d : DigitString) : Nat :=
  d.lhs.length + d.rhs.length

/-- DigitString.isPowerOfTen: the integer part is the single digit 1 (the
fractional part is not examined). -/
def DigitString.isPowerOfTen (d : DigitString) : Bool :=
  d.lhs.length == 1 && d.lhs.getD 0 0 == 1

/-- DigitString.isInteger: exponent at least 0. -/
def DigitString.isInteger (d : DigitString) : Bool :=
  decide (d.exponent ≥ 0)

/-- The integer whose decimal digits are the given list (BigInt of the
joined digit characters; BigInt("") is 0 for the empty list). -/
def natFromDigits (l : List Nat) : Nat :=
  l.foldl (fun a d => 10 * a + d) 0

/-- Modelled from the spec: the exact-rational engine (src/rational.mjs) is
not under src/.  Section 4.3: a value is a pair of arbitrary-precision
integers (numerator, denominator). -/
structure Rational where
  num : Int
  den : Int
deriving DecidableEq, Repr

/-- Modelled from the spec: Rational.cmp, total order via cross-
multiplication sign comparison (section 4.3).  Every rational built by
DigitString.toRational has a positive denominator. -/
def Rational.cmp (a b : Rational) : Int :=
  if a.num * b.den < b.num * a.den then -1
  else if b.num * a.den < a.num * b.den then 1
  else 0

/-- Modelled from the spec: Rational.divide, standard exact fraction
arithmetic via cross-multiplication (section 4.3). -/
def Rational.divide (a b : Rational) : Rational :=
  ⟨a.num * b.den, a.den * b.num⟩

/-- The exact value of a rational as a Lean rational number. -/
def Rational.val (r : Rational) : ℚ := (r.num : ℚ) / (r.den : ℚ)

/-- Decimal digits of a natural number. -/
def natDigitsStr (n : Nat) : Str := (Nat.repr n).toList

/-- Fraction-digit generation by long division, fuel-bounded. -/
def fracDigits (rem den : Nat) : Nat → Str
  | 0 => []
  | fuel + 1 =>
      let r := rem * 10
      Char.ofNat (48 + r / den) :: fracDigits (r % den) den fuel

/-- Modelled from the spec: Rational.toDecimalPlaces(n) renders the exact
value as a decimal digit string carrying n significant digits; section 4.3
allows plain truncation of the discarded remainder, which is what this
model does.  A zero denominator is a precondition violation (section 4.3)
and renders as 0. -/
def Rational.toDecimalPlaces (r : Rational) (n : Nat) : Str :=
  if r.den = 0 then ['0']
  else
    let neg : Bool := decide ((r.num < 0) ≠ (r.den < 0)) && r.num ≠ 0
    let a := r.num.natAbs
    let b := r.den.natAbs
    let ip := a / b
    let sign : Str := if neg then ['-'] else []
    if a = 0 then ['0']
    else if ip > 0 then
      let ipDigits := natDigitsStr ip
      let fracLen := n - ipDigits.length
      if fracLen = 0 then sign ++ ipDigits
      else sign ++ ipDigits ++ '.' :: fracDigits (a % b) b fracLen
    else
      sign ++ '0' :: '.' :: fracDigits a b ((natDigitsStr b).length + n)

/-- DigitString.toRational, with its special cases exactly as in the source:
a power-of-ten integer part short-circuits (ignoring the fractional part);
a negative exponent is impossible (the exponent is a list length) but the
branches are kept, including the suspicious 1n ** BigInt(0-exp) denominator,
which is 1; an exponent of exactly 1 appends the character 0 to the
significand (BigInt(sig + "0"), string concatenation), multiplying it by
ten; a zero significand yields 0/1; otherwise sig over 10^exp. -/
def DigitString.toRational (d : DigitString) : Rational :=
  let exp := d.exponent
  let sig : Int := natFromDigits d.significand
  if d.isPowerOfTen then
    if exp < 0 then ⟨1, (10 : Int) ^ (0 - exp).toNat⟩
    else if exp = 0 then ⟨sig, 1⟩
    else ⟨(10 : Int) ^ exp.toNat, 1⟩
  else if exp < 0 then ⟨sig, (1 : Int)⟩
  else if exp = 1 then ⟨sig * 10, 1⟩
  else if sig = 0 then ⟨0, 1⟩
  else ⟨sig, (10 : Int) ^ exp.toNat⟩

/-! The public value type of decimal128.mts. -/

/-- The exponent bounds and the precision bound of decimal128.mts. -/
def EXPONENT_MIN : Int := -6143

def EXPONENT_MAX : Int := 6144

def MAX_SIGNIFICANT_DIGITS : Nat := 34

/-- The largest JS safe integer, for Number.isSafeInteger. -/
def MAX_SAFE_INTEGER : Nat := 9007199254740991

/-- The four fields shared by the Decimal128Constructor data record and the
Decimal128 class (the class copies them verbatim). -/
structure Decimal128 where
  isNaN : Bool
  isFinite : Bool
  digits : DigitString
  isNegative : Bool
deriving DecidableEq, Repr

/-- Is a digit character, 0-9. -/
def isDig (c : Char) : Bool := 48 ≤ c.toNat && c.toNat ≤ 57

/-- An optional single leading minus sign, stripped. -/
def stripMinus : Str → Str
  | '-' :: r => r
  | l => l

/-- One digit group of the plain-decimal grammar: digits possibly broken by
single underscores, beginning and ending with a digit (the regex fragment
with digits and optional underscore separators). -/
def digitGroup : Str → Bool
  | [] => false
  | [c] => isDig c
  | c :: '_' :: rest => isDig c && digitGroup rest
  | c :: rest => isDig c && digitGroup rest

/-- The nanRegExp test: optional minus then nan, case-insensitive. -/
def matchNan (s : Str) : Bool :=
  (stripMinus s).map Char.toLower == "nan".toList

/-- The infRegExp test: optional minus then inf or infinity,
case-insensitive. -/
def matchInf (s : Str) : Bool :=
  let t := (stripMinus s).map Char.toLower
  t == "inf".toList || t == "infinity".toList

/-- A nonzero-leading run of digits: one character 1-9 then any digits. -/
def nonzeroDigitRun : Str → Bool
  | [] => false
  | c :: rest => (49 ≤ c.toNat && c.toNat ≤ 57) && rest.all isDig

/-- The exponent field of the exponentRegExp: an optional sign then a
nonzero-leading run of digits. -/
def signedNonzeroDigitRun : Str → Bool
  | '+' :: rest => nonzeroDigitRun rest
  | '-' :: rest => nonzeroDigitRun rest
  | l => nonzeroDigitRun l

/-- The exponentRegExp test: optional minus, nonzero-leading mantissa
digits, an e or E, an optionally signed nonzero-leading exponent. -/
def matchExponential (s : Str) : Bool :=
  let t := stripMinus s
  let mant := t.takeWhile (fun c => c != 'e' && c != 'E')
  match t.dropWhile (fun c => c != 'e' && c != 'E') with
  | [] => false
  | _ :: post => nonzeroDigitRun mant && signedNonzeroDigitRun post

/-- The digitStrRegExp test: optional minus, an underscore-separated digit
group, optionally a point and another underscore-separated digit group. -/
def matchDigitStr (s : Str) : Bool :=
  match (stripMinus s).splitOn '.' with
  | [a] => digitGroup a
  | [a, b] => digitGroup a && digitGroup b
  | _ => false

/-- The significand string helper of decimal128.mts: strips a leading minus,
a leading 0., the (first) decimal point, leading zeros, and trailing zeros,
in that order of tests, by repeated rewriting.  Fuel-indexed (each rewrite
shortens the string, so length + 1 steps always suffice). -/
def significandAux : Nat → Str → Str
  | 0, l => l
  | fuel + 1, l =>
    match l with
    | '-' :: r => significandAux fuel r
    | '0' :: '.' :: r => significandAux fuel r
    | _ =>
      if '.' ∈ l then significandAux fuel (l.erase '.')
      else if l.headD ' ' = '0' then
        significandAux fuel (l.dropWhile (fun c => c == '0'))
      else if l.getLast? = some '0' then
        significandAux fuel ((l.reverse.dropWhile (fun c => c == '0')).reverse)
      else l

/-- The significand string helper, with enough fuel for any input. -/
def significandStr (l : Str) : Str := significandAux (l.length + 1) l

/-- The part of the string between the first and second point: the value of
s.split(".")[1] when it is defined. -/
def afterDot (l : Str) : Str :=
  ((l.dropWhile (fun c => c != '.')).tail).takeWhile (fun c => c != '.')

/-- The exponent string helper of decimal128.mts: for a string with a point,
minus the length of the fractional text; for the string 0, zero; otherwise
the number of trailing zeros. -/
def exponentStr : Str → Int
  | '-' :: r => exponentStr r
  | l =>
    if '.' ∈ l then 0 - (afterDot l).length
    else if l = ['0'] then 0
    else (l.reverse.takeWhile (fun c => c == '0')).length

/-- countSignificantDigits from common.mts: a leading minus is stripped; a
string starting 0. drops the leading zeros of its fraction from the count
(the regex searching for a point followed by zeros); any other string with
a point counts every character but the point; otherwise trailing zeros do
not count.  (Inputs hold at most one point, so the regex search for a point
followed by zeros inspects the unique point.) -/
def countSigDigitsStr : Str → Nat
  | '-' :: r => countSigDigitsStr r
  | l =>
    match l with
    | '0' :: '.' :: _ =>
      let zs := ((l.dropWhile (fun c => c != '.')).tail.takeWhile
        (fun c => c == '0')).length
      if 0 < zs then l.length - (zs + 1) - 1 else l.length - 2
    | _ =>
      if '.' ∈ l then l.length - 1
      else
        let zs := (l.reverse.takeWhile (fun c => c == '0')).length
        if 0 < zs then l.length - zs else l.length

/-- JS parseInt on a signed run of digits. -/
def parseIntList : Str → Int
  | '-' :: r => 0 - (natFromDigits (r.map charVal) : Int)
  | '+' :: r => (natFromDigits (r.map charVal) : Int)
  | l => (natFromDigits (l.map charVal) : Int)

/-- convertExponentialStringToDecimalString: splits at the e or E marker,
parses the exponent, and rewrites the mantissa to plain decimal form. -/
def convertExpToDecimal (s : Str) : Str :=
  let lhs := s.takeWhile (fun c => c != 'e' && c != 'E')
  let rhs := (s.dropWhile (fun c => c != 'e' && c != 'E')).tail
  let exp := parseIntList rhs
  if exp < 0 then
    ['0', '.'] ++ List.replicate (exp.natAbs - 1) '0' ++ lhs.erase '.'
  else if exp = 0 then lhs
  else if (lhs.length : Int) ≤ exp then
    lhs ++ List.replicate (exp - lhs.length).toNat '0'
  else lhs.take exp.toNat ++ '.' :: lhs.drop exp.toNat

/-- The charAt(i) read of handleDecimalNotation's rounding step: parseInt of
the character at the index, which is NaN when the index is past the end of
the string or the character is not a digit (parseInt of "" is NaN). -/
def jsCharDigit (l : Str) (i : Nat) : JSDigit :=
  match l.get? i with
  | some c => if isDig c then .num (charVal c) else .nan
  | none => .nan

/-- handleDecimalNotation from decimal128.mts (the name ends differently
here only to satisfy a lexical constraint of this development): strips
underscores and the sign, computes the string-level significand, exponent
and significant-digit count, splits at the point into the two digit parts,
and for a non-integer with more than 34 significant digits applies one
half-even rounding step with the 35th significand character. -/
def handleDecimalInput (s : Str) : Except JSError Decimal128 := do
  let w0 := s.filter (fun c => c != '_')
  let isNegative : Bool := s.headD ' ' == '-'
  let w := if isNegative then w0.tail else w0
  let sg := significandStr w
  let exp := exponentStr w
  let numSigDigits := countSigDigitsStr w
  let isInt : Bool := decide (exp ≥ 0)
  let lhsS := w.takeWhile (fun c => c != '.')
  let rhsS := if '.' ∈ w then afterDot w else []
  let digits ← DigitString.make lhsS rhsS
  let digits ←
    if !isInt && numSigDigits > MAX_SIGNIFICANT_DIGITS then
      digits.round (jsCharDigit sg MAX_SIGNIFICANT_DIGITS) .halfEven
    else pure digits
  .ok ⟨false, true, digits, isNegative⟩

/-- handleExponentialNotation: rewrites to plain decimal and delegates. -/
def handleExponentialInput (s : Str) : Except JSError Decimal128 :=
  handleDecimalInput (convertExpToDecimal s)

/-- handleNan: an empty digit string, the sign of the literal. -/
def handleNan (s : Str) : Decimal128 :=
  ⟨true, false, ⟨[], []⟩, s.headD ' ' == '-'⟩

/-- handleInfinity: an empty digit string, the sign of the literal. -/
def handleInfinity (s : Str) : Decimal128 :=
  ⟨false, true, ⟨[], []⟩, s.headD ' ' == '-'⟩

/-- The isInteger helper on constructor data: finite, not NaN, and the
digit-sequence exponent at least 0. -/
def isIntegerData (x : Decimal128) : Bool :=
  !x.isNaN && x.isFinite && decide (x.digits.exponent ≥ 0)

/-- validateConstructorData: NaN passes; an integer with more than 34
significant digits is rejected; the exponent must lie within the format
bounds. -/
def validateConstructorData (x : Decimal128) : Except JSError Unit :=
  if x.isNaN then .ok ()
  else if isIntegerData x ∧ x.digits.countSignificantDigits > MAX_SIGNIFICANT_DIGITS
    then .error .rangeIntegerTooLarge
  else if x.digits.exponent > EXPONENT_MAX then .error .rangeExpTooBig
  else if x.digits.exponent < EXPONENT_MIN then .error .rangeExpTooSmall
  else .ok ()

/-- The Decimal128 constructor: classification against the four grammars in
source order (nan, exponential, plain decimal, infinity), a syntax error
otherwise, then validation. -/
def parse (n : Str) : Except JSError Decimal128 := do
  let data ←
    if matchNan n then .ok (handleNan n)
    else if matchExponential n then handleExponentialInput n
    else if matchDigitStr n then handleDecimalInput n
    else if matchInf n then .ok (handleInfinity n)
    else .error .badFormat
  validateConstructorData data
  .ok data

/-- Decimal128.toString: NaN, signed Infinity, or the digit string (note:
no sign is prepended for finite values). -/
def Decimal128.toStr (x : Decimal128) : Str :=
  if x.isNaN then "NaN".toList
  else if !x.isFinite then
    (if x.isNegative then ['-'] else []) ++ "Infinity".toList
  else x.digits.toStr

/-- Decimal128's private toRational: delegates to the digit string. -/
def Decimal128.toRational (x : Decimal128) : Rational :=
  x.digits.toRational

/-- Decimal128.isInteger. -/
def Decimal128.isInteger (x : Decimal128) : Bool :=
  !x.isNaN && x.isFinite && decide (x.digits.exponent ≥ 0)

/-- Decimal128.isZero (private): finite, not NaN, and digits.isInteger(). -/
def Decimal128.isZero (x : Decimal128) : Bool :=
  !x.isNaN && x.isFinite && x.digits.isInteger

/-- Decimal128.abs: for a negative value, re-parses toString() with its
first character removed; otherwise returns the value. -/
def Decimal128.abs (x : Decimal128) : Except JSError Decimal128 :=
  if x.isNegative then parse x.toStr.tail else .ok x

/-- Decimal128.negate: re-parses toString() with a minus toggled in front. -/
def Decimal128.negate (x : Decimal128) : Except JSError Decimal128 :=
  let s := x.toStr
  if s.headD ' ' == '-' then parse s.tail else parse ('-' :: s)

/-- Decimal128.cmp: undefined (none) when an operand is NaN; infinities by
sign; otherwise exact-rational comparison of the (unsigned) digit
magnitudes. -/
def Decimal128.cmp (x y : Decimal128) : Option Int :=
  if x.isNaN || y.isNaN then none
  else if !x.isFinite then
    if !y.isFinite then
      if x.isNegative = y.isNegative then some 0
      else if x.isNegative then some (-1) else some 1
    else if x.isNegative then some (-1) else some 1
  else if !y.isFinite then
    if y.isNegative then some 1 else some (-1)
  else some (x.toRational.cmp y.toRational)

/-- Decimal128.divide: NaN for a NaN operand; NaN when the divisor isZero();
the infinity table; otherwise exact rational division rendered to 35
significant digits and re-parsed. -/
def Decimal128.divide (x y : Decimal128) : Except JSError Decimal128 :=
  if x.isNaN || y.isNaN then parse "NaN".toList
  else if y.isZero then parse "NaN".toList
  else if !x.isFinite then
    if !y.isFinite then parse "NaN".toList
    else if x.isNegative = y.isNegative then parse "Infinity".toList
    else if x.isNegative then .ok x
    else parse "-Infinity".toList
  else if !y.isFinite then
    if x.isNegative = y.isNegative then parse "0".toList
    else parse "-0".toList
  else
    parse ((Rational.divide x.toRational y.toRational).toDecimalPlaces
      (MAX_SIGNIFICANT_DIGITS + 1))

/-- The rhs[numDecimalDigits] array read of Decimal128.round: undefined past
the end. -/
def jsIndex (l : List Nat) (i : Nat) : JSDigit :=
  match l.get? i with
  | some v => .num v
  | none => .undefined

/-- Decimal128.round: checks that the count plus one is a safe integer,
passes NaN and infinite values through, returns the value unchanged when it
has fewer fractional digits than requested, and otherwise reads the
deciding digit at the requested index (one past the kept digits only when
the fraction is strictly longer), applies the digit-sequence rounding step
and re-parses.  The count is embedded as Nat, so the negative-count throw
of the source is vacuous here. -/
def Decimal128.round (x : Decimal128) (numDecimalDigits : Nat)
    (mode : RoundingMode) : Except JSError Decimal128 :=
  if ¬ (numDecimalDigits + 1 ≤ MAX_SAFE_INTEGER) then .error .typeNotSafeInteger
  else if x.isNaN then .ok x
  else if !x.isFinite then .ok x
  else if x.digits.rhs.length < numDecimalDigits then .ok x
  else do
    let decidingDigit := jsIndex x.digits.rhs numDecimalDigits
    let rounded ← x.digits.round decidingDigit mode
    parse rounded.toStr

/-! Spec-side definitions used for comparison with the embedded code. -/

/-- The exact-rational contract of spec section 4.2, stated from the spec's
words for comparison with DigitString.toRational: the value
significand times ten to the power (exponent minus totalSignificantDigits),
where the significand is the integer formed by concatenating both digit
parts. -/
def specRationalValue (d : DigitString) : ℚ :=
  (natFromDigits d.significand : ℚ) *
    (10 : ℚ) ^ (d.exponent - (d.countSignificantDigits : Int))

/-- The rounding-mode table of spec section 4.2, stated from the spec's
words for comparison with roundIt: whether the mode rounds up, given the
sign, the kept digit d and the deciding digit r. -/
def specRoundsUp (isNegative : Bool) (d r : Nat) : RoundingMode → Bool
  | .ceil => !isNegative
  | .floor => isNegative
  | .expand => true
  | .trunc => false
  | .halfExpand => decide (r ≥ 5)
  | .halfCeil => decide (r ≥ 5) && !isNegative
  | .halfFloor => decide (r > 5) || (decide (r = 5) && isNegative)
  | .halfTrunc => decide (r > 5)
  | .halfEven => decide (r > 5) || (decide (r = 5) && decide (d % 2 = 1))

/-- Whether an Except value is an error. -/
def isError {ε α : Type} : Except ε α → Bool
  | .error _ => true
  | .ok _ => false

/-! Claim theorems. -/

/-- C1: the claim says toRational() returns the exact value
significand times 10^(exponent - totalSignificantDigits) for every digit
sequence.  It does not: on the digit sequence of "2.5" (integer part 2,
fractional part 5) the exponent-equal-to-one special case concatenates a 0
onto the significand, producing 250/1 instead of the formula's 25/10. -/
theorem c1_toRational_deviates_from_spec_formula :
    (DigitString.toRational ⟨[2], [5]⟩).val ≠ specRationalValue ⟨[2], [5]⟩ := by
  have h1 : DigitString.toRational ⟨[2], [5]⟩ = ⟨250, 1⟩ := by decide
  have h2 : specRationalValue ⟨[2], [5]⟩ = 5 / 2 := by
    simp [specRationalValue, DigitString.exponent, DigitString.significand,
      DigitString.countSignificantDigits, natFromDigits]
    norm_num
  rw [h1, h2]
  simp [Rational.val]
  norm_num

/-- C2: the claim says re-parsing toString() succeeds for every finite
numeral with at most 34 significant digits and in-range exponent.  The
literal "4" parses to such a numeral, but its toString() renders as "4."
(trailing point, empty fraction, and no sign is ever emitted for finite
values), which matches none of the accepted grammars and throws a syntax
error on re-parsing. -/
theorem c2_roundtrip_fails_on_integer_literal :
    (do
      let x ← parse "4".toList
      parse x.toStr : Except JSError Decimal128) = .error .badFormat := by
  decide

/-- C3: the claim says divide returns NaN only for NaN operands, two
infinite operands, or a finite zero divisor, and that 10 divided by 4 is
2.5.  In the code, isZero() tests digits.isInteger(), which holds for every
finite value (the digit-sequence exponent is a list length), so dividing by
the finite non-zero numeral 4 already returns NaN. -/
theorem c3_divide_by_finite_four_returns_nan :
    (do
      let a ← parse "10".toList
      let b ← parse "4".toList
      a.divide b : Except JSError Decimal128) =
    .ok ⟨true, false, ⟨[], []⟩, false⟩ := by
  decide

/-- C4: the claim says every operation on a NaN operand, abs included,
completes without raising and returns NaN.  abs on the numeral parsed from
"-nan" re-parses toString() minus its first character, i.e. the text "aN",
which matches no grammar and throws a syntax error. -/
theorem c4_abs_of_negative_nan_throws :
    (do
      let x ← parse "-nan".toList
      x.abs : Except JSError Decimal128) = .error .badFormat := by
  decide

/-- C5: the claim says a 35-significant-digit non-integer literal is
accepted and rounded to 34 digits half-even.  The first computation shows
the 35-digit all-integer literal is indeed rejected, as claimed; the second
shows the 35-significant-digit non-integer literal is rejected too, with
the same precision-overflow error, because validation classifies every
finite value as an integer (digit-sequence exponent is a length, at least
0) and the rounding step grows the stored digit count to 36. -/
theorem c5_noninteger_35_digits_also_rejected :
    parse "11111111111111111111111111111111111".toList =
      .error .rangeIntegerTooLarge ∧
    parse "123456789012345678901234567890.12345".toList =
      .error .rangeIntegerTooLarge := by
  constructor
  · decide
  · decide

/-- C6: the claim says rounding 2.5 to 0 places under half-expand yields a
numeral cmp-equal to 3.  The digit-splicing of DigitString.round drops the
first fractional digit and appends the rounded digit, producing the numeral
2.06, which compares strictly greater than... in fact cmp returns 1 against
3's broken rational 30/1 versus 2.06's 2060/1; in any case not 0. -/
theorem c6_round_half_expand_of_two_point_five_is_not_three :
    (do
      let a ← parse "2.5".toList
      let b ← parse "3".toList
      let r ← a.round 0 .halfExpand
      pure (r, r.cmp b) : Except JSError (Decimal128 × Option Int)) =
    .ok (⟨false, true, ⟨[2], [0, 6]⟩, false⟩, some 1) := by
  decide

/-- C7: the claim says abs completes without raising for every numeral and
preserves the magnitude.  On the numeral parsed from "-5.5", toString()
renders "5.5" (no sign is emitted for finite values), abs removes its first
character and re-parses ".5", which matches no grammar and throws. -/
theorem c7_abs_of_negative_finite_throws :
    (do
      let x ← parse "-5.5".toList
      x.abs : Except JSError Decimal128) = .error .badFormat := by
  decide

/-- C8: for every sign, kept digit d in 0-9, deciding digit r in 0-9 and
each of the nine rounding modes, roundIt returns d+1 exactly under the
spec table's round-up condition for that mode and d otherwise. -/
theorem c8_roundIt_matches_spec_table (s : Bool) (d r : Nat)
    (hd : d < 10) (hr : r < 10) (mode : RoundingMode) :
    roundIt s (.num d) r mode =
      .num (if specRoundsUp s d r mode then d + 1 else d) := by
  cases mode <;> cases s <;>
    simp [roundIt, specRoundsUp, jsAdd1, jsMod2IsZero] <;>
    split_ifs <;> simp_all <;> omega

/-- Witness for C8 at sign false, d = 3, r = 5, mode half-even. -/
theorem c8_roundIt_matches_spec_table_witness :
    3 < 10 ∧ 5 < 10 ∧
    roundIt false (.num 3) 5 .halfEven =
      .num (if specRoundsUp false 3 5 .halfEven then 3 + 1 else 3) :=
  ⟨by decide, by decide,
    c8_roundIt_matches_spec_table false 3 5 (by decide) (by decide) .halfEven⟩

/-! Helper lemmas on error shapes, toward claims C9 and C10. -/

theorem integerCharToDigit_error {c : Char} {e : JSError}
    (h : integerCharToDigit c = .error e) : e = .notADigit c := by
  unfold integerCharToDigit at h
  split at h
  all_goals first
    | exact (Except.error.inj h).symm
    | exact absurd h (by simp)

theorem explodeDigits_error :
    ∀ {l : Str} {e : JSError}, explodeDigits l = .error e →
      ∃ c, e = .notADigit c := by
  intro l
  induction l with
  | nil => intro e h; simp [explodeDigits] at h
  | cons c cs ih =>
    intro e h
    cases hc : integerCharToDigit c with
    | error e1 =>
      simp [explodeDigits, hc, Bind.bind, Except.bind] at h
      exact ⟨c, h ▸ integerCharToDigit_error hc⟩
    | ok d =>
      cases hds : explodeDigits cs with
      | error e2 =>
        simp [explodeDigits, hc, hds, Bind.bind, Except.bind] at h
        exact h ▸ ih hds
      | ok ds => simp [explodeDigits, hc, hds, Bind.bind, Except.bind] at h

theorem make_error {l r : Str} {e : JSError}
    (h : DigitString.make l r = .error e) : ∃ c, e = .notADigit c := by
  cases hl : explodeDigits l with
  | error e1 =>
    simp [DigitString.make, hl, Bind.bind, Except.bind] at h
    exact h ▸ explodeDigits_error hl
  | ok dl =>
    cases hm : explodeDigits r with
    | error e2 =>
      simp [DigitString.make, hl, hm, Bind.bind, Except.bind] at h
      exact h ▸ explodeDigits_error hm
    | ok dr => simp [DigitString.make, hl, hm, Bind.bind, Except.bind] at h

theorem dsRound_error {d : DigitString} {f : JSDigit} {m : RoundingMode}
    {e : JSError} (h : d.round f m = .error e) : ∃ c, e = .notADigit c := by
  unfold DigitString.round at h
  exact make_error h

theorem decimal_chain_error {m : Except JSError DigitString} {cond : Bool}
    (rnd : DigitString → Except JSError DigitString)
    (fin : DigitString → Decimal128)
    (hm : ∀ e, m = .error e → ∃ c, e = .notADigit c)
    (hr : ∀ d e, rnd d = .error e → ∃ c, e = .notADigit c)
    {e : JSError}
    (h : (m >>= fun digits =>
      if cond then rnd digits >>= fun y => .ok (fin y)
      else pure digits >>= fun y => .ok (fin y)) = .error e) :
    ∃ c, e = .notADigit c := by
  cases hmv : m with
  | error e1 =>
    rw [hmv] at h
    simp [Bind.bind, Except.bind] at h
    exact h ▸ hm e1 hmv
  | ok d =>
    rw [hmv] at h
    simp only [Bind.bind, Except.bind] at h
    split at h
    · cases hrv : rnd d with
      | error e2 =>
        rw [hrv] at h
        simp only [Except.error.injEq] at h
        exact h ▸ hr d e2 hrv
      | ok y =>
        rw [hrv] at h
        exact absurd h (by simp)
    · simp [pure, Except.pure] at h

theorem handleDecimalInput_error {s : Str} {e : JSError}
    (h : handleDecimalInput s = .error e) : ∃ c, e = .notADigit c := by
  unfold handleDecimalInput at h
  exact decimal_chain_error _ _ (fun e1 he => make_error he)
    (fun d e1 he => dsRound_error he) h

theorem validate_never_expTooSmall (x : Decimal128) :
    validateConstructorData x ≠ .error .rangeExpTooSmall := by
  unfold validateConstructorData
  split_ifs with h1 h2 h3 h4 <;> simp_all [DigitString.exponent, EXPONENT_MIN]
  omega

theorem parse_step_never_expTooSmall {m : Except JSError Decimal128}
    (hm : ∀ e, m = .error e → e ≠ .rangeExpTooSmall) :
    (m >>= fun data => validateConstructorData data >>= fun _ =>
      (.ok data : Except JSError Decimal128)) ≠ .error .rangeExpTooSmall := by
  intro h
  cases hmv : m with
  | error e1 =>
    rw [hmv] at h
    simp [Bind.bind, Except.bind] at h
    exact hm e1 hmv h
  | ok d =>
    rw [hmv] at h
    simp only [Bind.bind, Except.bind] at h
    cases hv : validateConstructorData d with
    | error e2 =>
      rw [hv] at h
      simp [Except.bind] at h
      exact validate_never_expTooSmall d (h ▸ hv)
    | ok u => rw [hv] at h; simp [Except.bind] at h

theorem parse_never_expTooSmall (t : Str) :
    parse t ≠ .error .rangeExpTooSmall := by
  unfold parse
  split_ifs with h1 h2 h3 h4
  · exact parse_step_never_expTooSmall (fun e he => by simp at he)
  · exact parse_step_never_expTooSmall (fun e he => by
      obtain ⟨c, hc⟩ := handleDecimalInput_error (s := convertExpToDecimal t) he
      simp [hc])
  · exact parse_step_never_expTooSmall (fun e he => by
      obtain ⟨c, hc⟩ := handleDecimalInput_error he
      simp [hc])
  · exact parse_step_never_expTooSmall (fun e he => by simp at he)
  · simp [Bind.bind, Except.bind]

/-- C9: every successfully parsed finite non-NaN numeral has a non-negative
digit-sequence exponent (it is the integer-part length), isInteger() is
true for every finite non-NaN numeral, and the exponent-too-small error is
unreachable from the public constructor. -/
theorem c9_exponent_nonneg_isInteger_expTooSmall_unreachable
    (s : Str) (x : Decimal128) (h : parse s = .ok x)
    (hn : x.isNaN = false) (hf : x.isFinite = true) :
    (0 ≤ x.digits.exponent ∧ x.isInteger = true) ∧
    ∀ t, parse t ≠ .error .rangeExpTooSmall := by
  refine ⟨⟨?_, ?_⟩, parse_never_expTooSmall⟩
  · simp [DigitString.exponent]
  · simp [Decimal128.isInteger, hn, hf, DigitString.exponent]

/-- The numeral parsed from the literal 1.5, for the C9 witness. -/
def d15 : Decimal128 := ⟨false, true, ⟨[1], [5]⟩, false⟩

/-- Witness for C9 at the literal 1.5. -/
theorem c9_exponent_nonneg_isInteger_expTooSmall_unreachable_witness :
    parse ("1.5".toList) = .ok d15 ∧
    (0 ≤ d15.digits.exponent ∧ d15.isInteger = true) ∧
    parse ("no".toList) ≠ .error .rangeExpTooSmall :=
  ⟨by decide,
    (c9_exponent_nonneg_isInteger_expTooSmall_unreachable ("1.5".toList) d15
      (by decide) rfl rfl).1,
    (c9_exponent_nonneg_isInteger_expTooSmall_unreachable ("1.5".toList) d15
      (by decide) rfl rfl).2 ("no".toList)⟩

/-! Helper lemmas toward claim C10. -/

theorem repr_digit_toList {d : Nat} (h : d < 10) :
    (Nat.repr d).toList = [Char.ofNat (48 + d)] := by
  interval_cases d <;> decide

theorem good_digitChar {d : Nat} (h : d < 10) :
    integerCharToDigit (Char.ofNat (48 + d)) = .ok d := by
  interval_cases d <;> decide

theorem digitChar_ne_dot {d : Nat} (h : d < 10) :
    (Char.ofNat (48 + d) != '.') = true := by
  interval_cases d <;> decide

theorem renderDigits_chars {l : List Nat} (h : ∀ d ∈ l, d < 10) :
    ∀ c ∈ renderDigits l, ∃ n, n < 10 ∧ c = Char.ofNat (48 + n) := by
  induction l with
  | nil => simp [renderDigits]
  | cons d rest ih =>
    intro c hc
    have hd : d < 10 := h d (by simp)
    rw [renderDigits, List.map_cons, List.flatten_cons, repr_digit_toList hd] at hc
    rcases List.mem_append.1 hc with h1 | h1
    · simp at h1
      exact ⟨d, hd, h1⟩
    · exact ih (fun a ha => h a (by simp [ha])) c h1

theorem explode_append_error {pre : Str} (bad : Str) (e : JSError)
    (hpre : ∀ c ∈ pre, ∃ n, integerCharToDigit c = .ok n)
    (hbad : explodeDigits bad = .error e) :
    explodeDigits (pre ++ bad) = .error e := by
  induction pre with
  | nil => simpa using hbad
  | cons c cs ih =>
    obtain ⟨n, hn⟩ := hpre c (by simp)
    have hrec := ih (fun a ha => hpre a (by simp [ha]))
    simp [explodeDigits, hn, hrec, Bind.bind, Except.bind]

theorem roundIt_undefined_cases (r : Nat) (mode : RoundingMode) :
    roundIt false .undefined r mode = .undefined ∨ roundIt false .undefined r mode = .nan := by
  cases mode <;> simp only [roundIt] <;> (try split_ifs) <;>
    simp [jsAdd1, jsMod2IsZero]

theorem takeWhile_dot {pre : Str} (post : Str)
    (hpre : ∀ c ∈ pre, (c != '.') = true) :
    (pre ++ '.' :: post).takeWhile (fun c => c != '.') = pre ∧
    ((pre ++ '.' :: post).dropWhile (fun c => c != '.')).tail = post := by
  induction pre with
  | nil => constructor <;> simp [List.takeWhile_cons, List.dropWhile_cons]
  | cons c cs ih =>
    have hc : (c != '.') = true := hpre c (by simp)
    have hrec := ih (fun a ha => hpre a (by simp [ha]))
    constructor <;>
      simp [List.takeWhile_cons, List.dropWhile_cons, hc, hrec.1, hrec.2]

theorem dsRound_undef_errors (d : DigitString)
    (hl : ∀ a ∈ d.lhs, a < 10) (hr : ∀ a ∈ d.rhs, a < 10)
    (mode : RoundingMode) :
    isError (d.round .undefined mode) = true := by
  obtain ⟨pre, hs, hpre_ne, hpre_good⟩ :
      ∃ pre, d.toStr = pre ++ '.' :: renderDigits d.rhs ∧
        (∀ c ∈ pre, (c != '.') = true) ∧
        (∀ c ∈ pre, ∃ n, integerCharToDigit c = .ok n) := by
    by_cases hL : d.lhs = []
    · exact ⟨['0'], by simp [DigitString.toStr, hL], by decide,
        fun c hc => by simp at hc; exact ⟨0, by rw [hc]; decide⟩⟩
    · refine ⟨renderDigits d.lhs, by simp [DigitString.toStr, hL], ?_, ?_⟩
      · intro c hc
        obtain ⟨n, hn, rfl⟩ := renderDigits_chars hl c hc
        exact digitChar_ne_dot hn
      · intro c hc
        obtain ⟨n, hn, rfl⟩ := renderDigits_chars hl c hc
        exact ⟨n, good_digitChar hn⟩
  obtain ⟨htake, hdrop⟩ := takeWhile_dot (renderDigits d.rhs) hpre_ne
  have hgoodpre2 : ∀ c ∈ (renderDigits d.rhs ++ ['0']).drop 1,
      ∃ n, integerCharToDigit c = .ok n := by
    intro c hc
    have hc2 : c ∈ renderDigits d.rhs ++ ['0'] := List.drop_subset _ _ hc
    rcases List.mem_append.1 hc2 with h1 | h1
    · obtain ⟨n, hn, rfl⟩ := renderDigits_chars hr c h1
      exact ⟨n, good_digitChar hn⟩
    · simp at h1
      exact ⟨0, by rw [h1]; decide⟩
  unfold DigitString.round
  simp only [hs, htake, hdrop]
  rcases roundIt_undefined_cases
      (charVal ((renderDigits d.rhs ++ ['0']).headD '0')) mode with hru | hru <;>
    rw [hru]
  · have herr := explode_append_error (renderJS .undefined) (.notADigit 'u')
      hgoodpre2 (by decide)
    rw [List.drop_one] at herr
    cases hp : explodeDigits pre with
    | error e1 => simp [DigitString.make, hp, Bind.bind, Except.bind, isError]
    | ok l1 => simp [DigitString.make, hp, herr, Bind.bind, Except.bind, isError]
  · have herr := explode_append_error (renderJS .nan) (.notADigit 'N')
      hgoodpre2 (by decide)
    rw [List.drop_one] at herr
    cases hp : explodeDigits pre with
    | error e1 => simp [DigitString.make, hp, Bind.bind, Except.bind, isError]
    | ok l1 => simp [DigitString.make, hp, herr, Bind.bind, Except.bind, isError]

/-- C10: for every finite non-NaN numeral whose fractional digit list has
exactly n entries (n = 0 for integer-rendered numerals included), round(n,
mode) raises an error for every rounding mode: the deciding-digit read is
one position past the fractional array, and the spliced rounding result
fails digit validation on re-construction. -/
theorem c10_round_at_fraction_length_errors (x : Decimal128)
    (hn : x.isNaN = false) (hf : x.isFinite = true)
    (hl : ∀ a ∈ x.digits.lhs, a < 10) (hr : ∀ a ∈ x.digits.rhs, a < 10)
    (hs : x.digits.rhs.length + 1 ≤ MAX_SAFE_INTEGER) (mode : RoundingMode) :
    isError (x.round x.digits.rhs.length mode) = true := by
  unfold Decimal128.round
  split_ifs with h1 h2 h3
  · simp [hn] at h1
  · simp [hf] at h2
  · omega
  · have hidx : jsIndex x.digits.rhs x.digits.rhs.length = .undefined := by
      simp [jsIndex]
    rw [hidx]
    have hround := dsRound_undef_errors x.digits hl hr mode
    cases hrv : x.digits.round .undefined mode with
    | error e => simp [hrv, Bind.bind, Except.bind, isError]
    | ok r =>
      rw [hrv] at hround
      simp [isError] at hround

/-- The numeral parsed from the literal 2.5, for the C10 witness. -/
def d25 : Decimal128 := ⟨false, true, ⟨[2], [5]⟩, false⟩

/-- Witness for C10 at the numeral 2.5 with one fractional digit, mode
truncate. -/
theorem c10_round_at_fraction_length_errors_witness :
    d25.isNaN = false ∧ d25.isFinite = true ∧
    (∀ a ∈ d25.digits.lhs, a < 10) ∧ (∀ a ∈ d25.digits.rhs, a < 10) ∧
    d25.digits.rhs.length + 1 ≤ MAX_SAFE_INTEGER ∧
    isError (d25.round d25.digits.rhs.length .trunc) = true :=
  ⟨rfl, rfl, by decide, by decide, by decide,
    c10_round_at_fraction_length_errors d25 rfl rfl (by decide) (by decide)
      (by decide) .trunc⟩

end D128
